import Mathlib

/-!
Verification of the deduplication and reconciliation core of python-imserv.

The development is a shallow embedding of imserv/db.py, imserv/main.py and
imserv/util.py.  File byte contents, decoded images and fingerprints are
modelled as natural numbers; the external pixel-level operations (PIL
decoding, trim_image and shrink_image arithmetic, PIL re-encoding on save,
the imagehash digest and Hamming distance) are carried as an explicit
environment.  The helpers get_checksum and get_image_hash are imported by
the sources from imserv.util but are not present in the repository
snapshot; they are modelled from the specification (section 4.1 and the
glossary).
-/

namespace ImServ

/-- Relative path under the managed image folder, as a list of components. -/
abbrev RelPath := List String

/-- A file in the managed folder: its byte content (modelled as a natural
number) and its modification time (set by os.utime in update_modified). -/
structure FsFile where
  content : Nat
  mtime : Nat
deriving DecidableEq, Repr

/-- An image record, from the SQLAlchemy model Image in imserv/db.py:
columns id, filename, checksum, image_hash, tags_str, info_json.
tags_str (a newline-joined set of strings) is modelled as a list of strings
with set semantics, and info_json (a JSON object of scalar values) as an
association list, following the derived accessors Image.tags and
Image.info. -/
structure DBImage where
  id : Nat
  filename : RelPath
  checksum : Nat
  image_hash : Option Nat
  tags : List String
  info : List (String × String)
deriving DecidableEq, Repr

/-- Whole-system state: the managed folder contents, the committed database
session, the paths sent to trash by send2trash, and the next autoincrement
record id. -/
structure St where
  fs : List (RelPath × FsFile)
  db : List DBImage
  trash : List RelPath
  nextId : Nat
deriving DecidableEq, Repr

/-- Modelled from the spec: the pixel-level operations are external-library
code (PIL, imagehash) and get_image_hash itself is imported from
imserv.util but missing from the repository snapshot.  Spec section 4.1
describes decoding that can fail (decode, none on an unreadable input),
the trim and shrink normalizations (trimF, shrinkF), re-encoding on save
(encodeF, the bytes im.save writes for a decoded image), the perceptual
fingerprint of a decoded image (dhash) and the Hamming distance between
fingerprints (dist).  slug is the slugify helper applied to tag strings. -/
structure Env where
  decode : Nat → Option Nat
  trimF : Nat → Nat
  shrinkF : Nat → Nat
  encodeF : Nat → Nat
  dhash : Nat → Option Nat
  dist : Nat → Nat → Nat
  slug : String → String

/-- The configuration options read by the core (imserv/config.py):
hash_difference_threshold (0 disables the near-duplicate scan) and
skip_hash (disables perceptual fingerprinting). -/
structure Config where
  hash_difference_threshold : Nat
  skip_hash : Bool
deriving DecidableEq, Repr

/-- Look a path up in the managed folder. -/
def fsLookup (fs : List (RelPath × FsFile)) (p : RelPath) : Option FsFile :=
  (fs.find? (fun e => e.1 == p)).map (fun e => e.2)

/-- Write a file at a path (overwriting the entry when one exists). -/
def fsSet (fs : List (RelPath × FsFile)) (p : RelPath) (f : FsFile) :
    List (RelPath × FsFile) :=
  if (fs.find? (fun e => e.1 == p)).isSome then
    fs.map (fun e => if e.1 == p then (p, f) else e)
  else fs ++ [(p, f)]

/-- os.utime in Image.update_modified: set the file times to now.  On a
missing file os.utime would raise FileNotFoundError; theorems exercising a
touch assume the touched record has a file on disk. -/
def touchFile (fs : List (RelPath × FsFile)) (p : RelPath) (now : Nat) :
    List (RelPath × FsFile) :=
  fs.map (fun e => if e.1 == p then (e.1, { e.2 with mtime := now }) else e)

/-- send2trash on a managed path: the file moves from the folder to a
recoverable trash location. -/
def send2trash (st : St) (p : RelPath) : St :=
  { st with fs := st.fs.filter (fun e => !(e.1 == p)),
            trash := st.trash ++ [p] }

/-- The pil_handle argument of Image._create: either in-memory bytes
(a BytesIO) or a source file path, carried here as the content readable
from it (none when the path cannot be read). -/
inductive Handle where
  | bytes (content : Nat)
  | file (content : Option Nat)
deriving DecidableEq, Repr

/-- The raw content a handle gives access to. -/
def Handle.readable : Handle → Option Nat
  | .bytes c => some c
  | .file c => c

/-- Modelled from the spec: get_checksum is imported in imserv/db.py from
imserv.util but is not present in the repository snapshot.  Per spec
section 4.1 and the glossary it is a deterministic exact digest of the raw
byte content where equal checksums imply equal bytes, so it is modelled as
the content itself, with none for an unreadable source. -/
def get_checksum (h : Handle) : Option Nat := h.readable

/-- The inner _process_image of Image._create: PIL.Image.open (none on
OSError), then trim_image and shrink_image when enabled. -/
def processImage (env : Env) (h : Handle) (trim shrink : Bool) : Option Nat :=
  (h.readable.bind env.decode).map (fun im0 =>
    let im1 := if trim then env.trimF im0 else im0
    if shrink then env.shrinkF im1 else im1)

/-- Image.similar_images_by_hash (imserv/db.py lines 325-333).  The body
contains a yield statement, so the function is a generator function; in
the threshold-zero branch the statement return iter(query) merely
terminates the generator and its value is discarded, so iterating the call
yields nothing.  In the scanning branch a record whose stored image_hash
is NULL would make imagehash.hex_to_hash raise; the model treats such a
record as no match, and theorems exercising that branch assume stored
hashes are present. -/
def similar_images_by_hash (env : Env) (cfg : Config) (db : List DBImage)
    (h : Nat) : List DBImage :=
  if cfg.hash_difference_threshold ≠ 0 then
    db.filter (fun r => match r.image_hash with
      | some hh => decide (env.dist hh h < cfg.hash_difference_threshold)
      | none => false)
  else []

/-- The exact-fingerprint lookup on the perceptual hash: the query
filter_by(image_hash=h) built on imserv/db.py line 333, whose results the
specification says find_near(h, 0) returns. -/
def exact_hash_lookup (db : List DBImage) (h : Nat) : List DBImage :=
  db.filter (fun r => r.image_hash == some h)

/-- The possible results of Image._create: a newly created record, an
existing record returned as-is, the error-string returns (the conflict
message carrying the pre-existing record, and the cannot-read-file
message), the bare None return when the checksum is unavailable, and the
IntegrityError that session.commit raises when the inserted image_hash
violates the unique constraint on the image_hash column. -/
inductive CreateOut where
  | created (rec : DBImage)
  | reused (rec : DBImage)
  | conflictMsg (existing : DBImage)
  | unreadableMsg
  | noneOut
  | integrityError
deriving DecidableEq, Repr

/-- Result of an ingestion call: the outcome and the successor state. -/
structure CreateRes where
  out : CreateOut
  st : St
deriving DecidableEq, Repr

/-- Image.add_tags: tags_str becomes the union of the current and the new
tag sets (python set union; only membership is meaningful). -/
def tagUnion (old new : List String) : List String :=
  old ++ new.filter (fun t => !(old.contains t))

/-- The tail of Image._create from the do_save block on (imserv/db.py lines
276-298): when the destination was free, place the file (shutil.copy for a
path handle, after which im.save re-encodes over it whenever a decoded
image is in hand; for a bytes handle _process_image runs again and its
result is saved when it decodes), then, unless an existing record was
adopted by the hash scan, insert the new record (session.commit raises
IntegrityError when its image_hash duplicates the hash of another record), apply the
requested tags and touch the new file. -/
def finishCreate (env : Env) (st : St) (filename : RelPath)
    (tags : List String) (handle : Handle) (trim shrink : Bool)
    (do_save : Bool) (im0 : Option Nat) (adopted : Option DBImage)
    (h : Option Nat) (c : Nat) (now : Nat) : CreateRes :=
  let fs2 :=
    if do_save then
      let fs1 := match handle with
        | .file (some b) => fsSet st.fs filename ⟨b, now⟩
        | _ => st.fs
      let imS := match handle with
        | .bytes _ => processImage env handle trim shrink
        | .file _ => im0
      match imS with
      | some im => fsSet fs1 filename ⟨env.encodeF im, now⟩
      | none => fs1
    else st.fs
  match adopted with
  | some r => ⟨.reused r, { st with fs := fs2 }⟩
  | none =>
    if h.isSome && st.db.any (fun r => r.image_hash == h) then
      ⟨.integrityError, { st with fs := fs2 }⟩
    else
      let newRec : DBImage := ⟨st.nextId, filename, c, h, tagUnion [] tags, []⟩
      ⟨.created newRec,
       { fs := touchFile fs2 filename now,
         db := st.db ++ [newRec],
         trash := st.trash,
         nextId := st.nextId + 1 }⟩

/-- The perceptual-hash phase of Image._create (imserv/db.py lines
246-274), entered when no record matched the checksum: when skip_hash is
configured the image is only processed (for trim or shrink) and no
fingerprint is taken; otherwise a decode or fingerprint failure returns
the cannot-read-file string, and the similar_images_by_hash scan either
returns the conflict string for its first match at another filename
(after touching it) or adopts a match at the same filename; finishCreate
then places the file and inserts the record. -/
def Image_create_hashPhase (env : Env) (cfg : Config) (st : St)
    (filename : RelPath) (tags : List String) (handle : Handle)
    (trim shrink : Bool) (do_save : Bool) (c : Nat) (now : Nat) : CreateRes :=
  if cfg.skip_hash then
    let im0 := if trim || shrink then processImage env handle trim shrink
      else none
    finishCreate env st filename tags handle trim shrink do_save im0
      none none c now
  else
    match processImage env handle trim shrink with
    | none => ⟨.unreadableMsg, st⟩
    | some im =>
      match env.dhash im with
      | none => ⟨.unreadableMsg, st⟩
      | some hv =>
        let sims := similar_images_by_hash env cfg st.db hv
        match sims.find? (fun r => !(r.filename == filename)) with
        | some r =>
          ⟨.conflictMsg r,
           { st with fs := touchFile st.fs r.filename now }⟩
        | none =>
          finishCreate env st filename tags handle trim shrink do_save
            (some im) sims.getLast? (some hv) c now

/-- Image._create (imserv/db.py lines 204-298): the checksum is taken from
the destination file when one already exists (do_save is then false) and
from the source otherwise; an exact checksum match returns the record
as-is at the same filename and the conflict string (after touching the
match) at a different filename; otherwise the hash phase runs. -/
def Image_create (env : Env) (cfg : Config) (st : St) (filename : RelPath)
    (tags : List String) (handle : Handle) (trim shrink : Bool)
    (now : Nat) : CreateRes :=
  let existing := fsLookup st.fs filename
  let checksum? := match existing with
    | some f => some f.content
    | none => get_checksum handle
  match checksum? with
  | none => ⟨.noneOut, st⟩
  | some c =>
    match st.db.find? (fun r => r.checksum == c) with
    | some r =>
      if r.filename = filename then ⟨.reused r, st⟩
      else ⟨.conflictMsg r, { st with fs := touchFile st.fs r.filename now }⟩
    | none =>
      Image_create_hashPhase env cfg st filename tags handle trim shrink
        existing.isNone c now

/-- complete_path_split (imserv/util.py lines 67-76) called with its
default relative_to, the managed folder, as in imserv/main.py line 325:
the body relativizes the path and collects the components from innermost
to outermost (path.name first, then each parent in turn). -/
def complete_path_split (p : RelPath) : List String := p.reverse

/-- complete_path_split called with relative_to=None, as in imserv/db.py
line 194: the body starts with Path(path).relative_to(relative_to), and
PurePath.relative_to rejects None (it is neither a string nor a path), so
for every input the call raises TypeError instead of returning the
component list. -/
def complete_path_split_relative_to_none (p : RelPath) :
    Option (List String) :=
  none

/-- The uncaught Python exception a core call can raise: the TypeError
from Path.relative_to(None) on imserv/db.py line 194. -/
inductive PyExc where
  | typeError
deriving DecidableEq, Repr

/-- The source of Image.from_existing: a path under the managed folder
(carried relative to it) or an external path outside it (carried as its
basename and readable content). -/
inductive Src where
  | internal (rel : RelPath)
  | external (name : String) (content : Option Nat)
deriving DecidableEq, Repr

/-- Image.from_existing (imserv/db.py lines 171-202): when no rel_path is
supplied, a source under the managed folder keeps its relative path (and
is_relative is set), an outside source falls back to its basename; line
194 then extends the tags with complete_path_split(rel_path.parent,
relative_to=None), a call that raises TypeError on every input, so the
function never reaches _create and the session and folder are untouched.
The remainder of the body (dead code in the source) would run _create
with trim and shrink disabled and send the source to trash on an error
string only when is_relative was set.  The skip_hash parameter is
accepted but never read: _create is called without it and only the
process-wide configuration is consulted. -/
def from_existing (env : Env) (cfg : Config) (st : St) (src : Src)
    (relArg : Option RelPath) (tags : List String) (skip_hash : Bool)
    (now : Nat) : Except PyExc CreateRes :=
  let rel : RelPath := match relArg, src with
    | some rp, _ => rp
    | none, .internal r => r
    | none, .external n _ => [n]
  let is_relative : Bool := match relArg, src with
    | none, .internal _ => true
    | _, _ => false
  let handle : Handle := match src with
    | .internal r => .file ((fsLookup st.fs r).map (fun f => f.content))
    | .external _ c => .file c
  match complete_path_split_relative_to_none rel.dropLast with
  | none => Except.error PyExc.typeError
  | some extra =>
    let tags2 := tags ++ extra
    let trashIt : St → St := fun s => match src with
      | .internal r => send2trash s r
      | .external _ _ => s
    let res := Image_create env cfg st rel tags2 handle false false now
    match res.out with
    | .conflictMsg _ =>
      Except.ok (if is_relative then ⟨res.out, trashIt res.st⟩ else res)
    | .unreadableMsg =>
      Except.ok (if is_relative then ⟨res.out, trashIt res.st⟩ else res)
    | _ => Except.ok res

/-- Modelled from the spec: nonrepeat_filename comes from the external
nonrepeat package; spec section 4.2 (assign_path) specifies that a free
candidate is returned unchanged and an occupied one grows a disambiguation
suffix derived from the tags and then a numeric counter until a free path
is found.  Candidate zero is the requested path itself and candidate k+1
appends the suffix and counter k to the final component. -/
def assignCandidate (p : RelPath) (suffix : String) : Nat → RelPath
  | 0 => p
  | k + 1 =>
    let base := match p.getLast? with
      | some nm => nm
      | none => ""
    let stem := if suffix = "" then base else base ++ "-" ++ suffix
    p.dropLast ++ [stem ++ "-" ++ toString k]

/-- Modelled from the spec: search the candidates in order for a free path;
the candidate list is longer than the folder listing, so a free candidate
always exists (the getD fallback is never reached on distinct candidates). -/
def nonrepeat_filename (fs : List (RelPath × FsFile)) (p : RelPath)
    (suffix : String) : RelPath :=
  (((List.range (fs.length + 2)).map (assignCandidate p suffix)).find?
    (fun q => (fsLookup fs q).isNone)).getD p

/-- Image.from_bytes_io (imserv/db.py lines 149-169): a random blob name is
used when no filename (or the browser default image.png) is supplied; the
name is disambiguated against the existing files by nonrepeat_filename
with a slugified tag suffix; _create runs with trim and shrink enabled.
The uuid argument models the random blob name draw. -/
def from_bytes_io (env : Env) (cfg : Config) (st : St) (content : Nat)
    (filename? : Option RelPath) (tags : List String) (uuid : String)
    (now : Nat) : CreateRes :=
  let fname0 : RelPath := match filename? with
    | none => ["blob", uuid ++ ".png"]
    | some p => if p = ["image.png"] then ["blob", uuid ++ ".png"] else p
  let fname := nonrepeat_filename st.fs fname0
    (env.slug (String.intercalate "-" tags))
  Image_create env cfg st fname tags (.bytes content) true true now

/-- dict.pop(key): the value and the remaining mapping, or none (a
KeyError) when the key is absent. -/
def popKey : List (String × String) → String →
    Option (String × List (String × String))
  | [], _ => none
  | (k', v) :: rest, k =>
    if k' = k then some (v, rest)
    else (popKey rest k).map (fun pr => (pr.1, (k', v) :: pr.2))

/-- Image.remove_info (imserv/db.py lines 140-147): the parsed info mapping
is read, the key is popped (a KeyError propagates when it is absent,
before info_json is reassigned and before the session commits, so nothing
is persisted on that path), and otherwise the remaining mapping is
stored. -/
def remove_info (im : DBImage) (key : String) : Except Unit DBImage :=
  match popKey im.info key with
  | none => Except.error ()
  | some pr => Except.ok { im with info := pr.2 }

/-- The prune/update step of one record in ImServ.refresh (imserv/main.py lines
290-306): a record whose file is gone is deleted; one whose recomputed
checksum differs from the stored one has its image_hash recomputed from
the file and both fields persisted; otherwise it is kept unchanged. -/
def pruneStep (env : Env) (fs : List (RelPath × FsFile)) (r : DBImage) :
    Option DBImage :=
  match fsLookup fs r.filename with
  | none => none
  | some f =>
    if f.content ≠ r.checksum then
      some { r with image_hash := (env.decode f.content).bind env.dhash,
                    checksum := f.content }
    else some r

/-- The exceptions that can escape ImServ.refresh: the TypeError that
every Image.from_existing call raises (db.py line 194), the
AttributeError db_image.add_tags would raise had from_existing returned
an error string or None, and the IntegrityError propagating out of a
commit. -/
inductive RefreshErr where
  | typeError
  | attributeError
  | integrityError
deriving DecidableEq, Repr

/-- Apply Image.add_tags to the record with the given id inside the
session. -/
def addTagsTo (db : List DBImage) (imId : Nat) (tags : List String) :
    List DBImage :=
  db.map (fun r => if r.id = imId then { r with tags := tagUnion r.tags tags }
    else r)

/-- One discovered file in ImServ.refresh (imserv/main.py lines 310-330):
a file already accounted for is skipped; otherwise its perceptual hash is
computed (skipping the file when that fails), an exact image_hash match is
logged as a conflict (optionally trashing the file), and otherwise the
file goes through Image.from_existing — whose unconditional TypeError
propagates uncaught — followed in the source text by
db_image.add_tags(complete_path_split(...)), a call that would raise
AttributeError when from_existing returned an error string or None. -/
def discoverStep (env : Env) (cfg : Config) (accounted : List RelPath)
    (do_delete : Bool) (now : Nat) (s : St) (e : RelPath × FsFile) :
    Except RefreshErr St :=
  if e.1 ∈ accounted then Except.ok s
  else
    match fsLookup s.fs e.1 with
    | none => Except.ok s
    | some f =>
      match (env.decode f.content).bind env.dhash with
      | none => Except.ok s
      | some hv =>
        match s.db.find? (fun r => r.image_hash == some hv) with
        | some _ => Except.ok (if do_delete then send2trash s e.1 else s)
        | none =>
          match from_existing env cfg s (.internal e.1) none [] false now with
          | Except.error _ => Except.error .typeError
          | Except.ok res =>
            match res.out with
            | .created im =>
              Except.ok { res.st with
                db := addTagsTo res.st.db im.id
                  (complete_path_split e.1.dropLast) }
            | .reused im =>
              Except.ok { res.st with
                db := addTagsTo res.st.db im.id
                  (complete_path_split e.1.dropLast) }
            | .integrityError => Except.error .integrityError
            | _ => Except.error .attributeError

/-- remove_non_images (imserv/util.py lines 56-58): despite its name the
body iterates images_in_path, so it sends every image file under the
managed folder to trash; with every modelled file being a managed image,
the whole folder listing is trashed.  The database session is untouched. -/
def remove_non_images (s : St) : St :=
  { s with fs := [], trash := s.trash ++ s.fs.map (fun e => e.1) }

/-- ImServ.refresh (imserv/main.py lines 282-333): the prune/update phase
over every record, tracking the surviving record paths as accounted for;
the discover phase over the folder listing; and, when do_delete is set,
the remove_non_images sweep. -/
def refresh (env : Env) (cfg : Config) (st : St) (do_delete : Bool)
    (now : Nat) : Except RefreshErr St :=
  let db1 := st.db.filterMap (pruneStep env st.fs)
  let accounted := db1.map (fun r => r.filename)
  let st1 : St := { st with db := db1 }
  match st.fs.foldl
      (fun acc e => acc.bind (fun s => discoverStep env cfg accounted
        do_delete now s e))
      (Except.ok st1) with
  | Except.error err => Except.error err
  | Except.ok s2 => Except.ok (if do_delete then remove_non_images s2 else s2)

/-- No two records in the session share a checksum. -/
def ChecksumUnique (st : St) : Prop :=
  st.db.Pairwise (fun a b => a.checksum ≠ b.checksum)

/-- The on-disk file of every record, when present, still holds the byte content
its stored checksum was computed from. -/
def FilesMatch (st : St) : Prop :=
  ∀ r ∈ st.db, ∀ f, fsLookup st.fs r.filename = some f → f.content = r.checksum

/-- An environment in which every pixel operation is the identity: content
decodes to itself, normalization and re-encoding change nothing, and the
perceptual digest of a decoded image is the image itself. -/
def envPlain : Env := ⟨some, id, id, id, some, fun _ _ => 0, id⟩

/-- An environment in which saving a decoded image re-encodes it to
different bytes (PIL gives no byte-identical round trip). -/
def envReencode : Env := ⟨some, id, id, Nat.succ, some, fun _ _ => 0, id⟩

/-- An environment in which the shrink normalization changes the pixels and
re-encoding maps every normalized image to the byte content 2, so two
different sources can land identical bytes on disk. -/
def envCollide : Env :=
  ⟨some, id, fun u => u + 10, fun u => if 10 ≤ u then 2 else u, some,
   fun _ _ => 0, id⟩

/-- The default configuration (imserv/config.py): threshold 0, hashing on. -/
def cfgDefault : Config := ⟨0, false⟩

/-- The empty initial state. -/
def stEmpty : St := ⟨[], [], [], 0⟩

/-- A record whose stored perceptual hash is 7. -/
def recHash7 : DBImage := ⟨0, ["a.png"], 1, some 7, [], []⟩

/-- A record indexing cat.png with checksum 100. -/
def recCat : DBImage := ⟨0, ["cat.png"], 100, some 5, [], []⟩

/-- A state whose root and index hold exactly cat.png. -/
def stCat : St := ⟨[(["cat.png"], ⟨100, 0⟩)], [recCat], [], 1⟩

/-- A state whose record was stored without a perceptual hash (a skip_hash
import) and whose folder holds a byte-identical copy at another path. -/
def stSkipHashCopy : St :=
  ⟨[(["cat.png"], ⟨100, 0⟩), (["copy.png"], ⟨100, 0⟩)],
   [⟨0, ["cat.png"], 100, none, [], []⟩], [], 1⟩

/-- Touching a path rewrites only the mtime of that entry. -/
theorem fsLookup_touchFile (fs : List (RelPath × FsFile)) (q p : RelPath)
    (now : Nat) :
    fsLookup (touchFile fs q now) p =
      (fsLookup fs p).map (fun f => if p = q then ⟨f.content, now⟩ else f) := by
  induction fs with
  | nil => rfl
  | cons a t ih =>
    unfold fsLookup touchFile at ih ⊢
    by_cases ha : a.1 = p
    · have hb : (a.1 == p) = true := beq_iff_eq.mpr ha
      by_cases haq : a.1 = q
      · have hbq : (a.1 == q) = true := beq_iff_eq.mpr haq
        have hpq : p = q := ha ▸ haq
        simp [List.find?, hb, hbq, hpq]
      · have hbq : (a.1 == q) = false := beq_eq_false_iff_ne.mpr haq
        have hpq : ¬ p = q := fun hc => haq (ha ▸ hc)
        simp [List.find?, hb, hbq, hpq]
    · have hb : (a.1 == p) = false := beq_eq_false_iff_ne.mpr ha
      by_cases haq : a.1 = q
      · have hbq : (a.1 == q) = true := beq_iff_eq.mpr haq
        simpa [List.find?, hb, hbq] using ih
      · have hbq : (a.1 == q) = false := beq_eq_false_iff_ne.mpr haq
        simpa [List.find?, hb, hbq] using ih

/-- Lookup in a one-file folder. -/
theorem fsLookup_single (q : RelPath) (f : FsFile) (p : RelPath) :
    fsLookup [(q, f)] p = if p = q then some f else none := by
  by_cases h : q = p
  · subst h
    simp [fsLookup, List.find?]
  · have hb : (q == p) = false := beq_eq_false_iff_ne.mpr h
    have hpq : ¬ p = q := fun hc => h hc.symm
    simp [fsLookup, List.find?, hb, hpq]

/-- The created-record branch of finishCreate: the record is the freshly
inserted row carrying the computed checksum. -/
theorem finishCreate_created_spec (env : Env) (st : St) (fn : RelPath)
    (tags : List String) (handle : Handle) (tr sh ds : Bool)
    (im0 : Option Nat) (adopted : Option DBImage) (h : Option Nat)
    (c now : Nat) (rec : DBImage)
    (hout : (finishCreate env st fn tags handle tr sh ds im0 adopted h c now).out
      = CreateOut.created rec) :
    rec = ⟨st.nextId, fn, c, h, tagUnion [] tags, []⟩ ∧
    (finishCreate env st fn tags handle tr sh ds im0 adopted h c now).st.db
      = st.db ++ [rec] ∧
    (finishCreate env st fn tags handle tr sh ds im0 adopted h c now).st.trash
      = st.trash := by
  unfold finishCreate at hout ⊢
  cases adopted with
  | some r => simp at hout
  | none =>
    by_cases hi : (h.isSome && st.db.any (fun r => r.image_hash == h)) = true
    · simp [hi] at hout
    · rw [Bool.not_eq_true] at hi
      simp [hi] at hout ⊢
      exact ⟨hout.symm, by rw [hout]⟩

/-- finishCreate either leaves the session unchanged or creates exactly one
record carrying the computed checksum. -/
theorem finishCreate_cases (env : Env) (st : St) (fn : RelPath)
    (tags : List String) (handle : Handle) (tr sh ds : Bool)
    (im0 : Option Nat) (adopted : Option DBImage) (h : Option Nat)
    (c now : Nat) :
    (finishCreate env st fn tags handle tr sh ds im0 adopted h c now).st.db
        = st.db ∨
    ∃ rec,
      (finishCreate env st fn tags handle tr sh ds im0 adopted h c now).out
        = CreateOut.created rec ∧
      (finishCreate env st fn tags handle tr sh ds im0 adopted h c now).st.db
        = st.db ++ [rec] ∧ rec.checksum = c := by
  unfold finishCreate
  cases adopted with
  | some r => left; rfl
  | none =>
    by_cases hi : (h.isSome && st.db.any (fun r => r.image_hash == h)) = true
    · left; simp [hi]
    · right
      rw [Bool.not_eq_true] at hi
      refine ⟨⟨st.nextId, fn, c, h, tagUnion [] tags, []⟩, ?_, ?_, rfl⟩ <;>
        simp [hi]

/-- The hash phase either leaves the session unchanged or creates exactly
one record carrying the computed checksum. -/
theorem hashPhase_db_cases (env : Env) (cfg : Config) (st : St)
    (fn : RelPath) (tags : List String) (handle : Handle)
    (tr sh ds : Bool) (c now : Nat) :
    (Image_create_hashPhase env cfg st fn tags handle tr sh ds c now).st.db
        = st.db ∨
    ∃ rec,
      (Image_create_hashPhase env cfg st fn tags handle tr sh ds c now).out
        = CreateOut.created rec ∧
      (Image_create_hashPhase env cfg st fn tags handle tr sh ds c now).st.db
        = st.db ++ [rec] ∧ rec.checksum = c := by
  simp only [Image_create_hashPhase]
  split
  · exact finishCreate_cases ..
  · split
    · left; rfl
    · split
      · left; rfl
      · split
        · left; rfl
        · exact finishCreate_cases ..

/-- A record created by the hash phase is the freshly inserted row. -/
theorem hashPhase_created_spec (env : Env) (cfg : Config) (st : St)
    (fn : RelPath) (tags : List String) (handle : Handle)
    (tr sh ds : Bool) (c now : Nat) (rec : DBImage)
    (hout : (Image_create_hashPhase env cfg st fn tags handle tr sh ds c now).out
      = CreateOut.created rec) :
    rec.id = st.nextId ∧ rec.filename = fn ∧ rec.checksum = c ∧
    (Image_create_hashPhase env cfg st fn tags handle tr sh ds c now).st.db
      = st.db ++ [rec] ∧
    (Image_create_hashPhase env cfg st fn tags handle tr sh ds c now).st.trash
      = st.trash := by
  simp only [Image_create_hashPhase] at hout ⊢
  by_cases hsk : cfg.skip_hash = true
  · simp only [hsk, if_true] at hout ⊢
    obtain ⟨hrec, hdb, htr⟩ :=
      finishCreate_created_spec _ _ _ _ _ _ _ _ _ _ _ _ _ _ hout
    exact ⟨by rw [hrec], by rw [hrec], by rw [hrec], hdb, htr⟩
  · rw [Bool.not_eq_true] at hsk
    simp only [hsk, Bool.false_eq_true, if_false] at hout ⊢
    cases heq1 : processImage env handle tr sh with
    | none =>
      simp only [heq1] at hout
      simp at hout
    | some im =>
      simp only [heq1] at hout ⊢
      cases heq2 : env.dhash im with
      | none =>
        simp only [heq2] at hout
        simp at hout
      | some hv =>
        simp only [heq2] at hout ⊢
        cases heq3 : (similar_images_by_hash env cfg st.db hv).find?
            (fun r => !(r.filename == fn)) with
        | some r =>
          simp only [heq3] at hout
          simp at hout
        | none =>
          simp only [heq3] at hout ⊢
          obtain ⟨hrec, hdb, htr⟩ :=
            finishCreate_created_spec _ _ _ _ _ _ _ _ _ _ _ _ _ _ hout
          exact ⟨by rw [hrec], by rw [hrec], by rw [hrec], hdb, htr⟩

/-- Image._create either leaves the session unchanged or creates exactly
one record whose checksum no existing record shares. -/
theorem Image_create_db_cases (env : Env) (cfg : Config) (st : St)
    (fn : RelPath) (tags : List String) (handle : Handle)
    (tr sh : Bool) (now : Nat) :
    (Image_create env cfg st fn tags handle tr sh now).st.db = st.db ∨
    ∃ rec,
      (Image_create env cfg st fn tags handle tr sh now).out
        = CreateOut.created rec ∧
      (Image_create env cfg st fn tags handle tr sh now).st.db
        = st.db ++ [rec] ∧
      ∀ r ∈ st.db, r.checksum ≠ rec.checksum := by
  simp only [Image_create]
  split
  · left; rfl
  · rename_i c heq
    cases hfind : st.db.find? (fun r => r.checksum == c) with
    | some r =>
      simp only [hfind]
      split
      · left; rfl
      · left; rfl
    | none =>
      simp only [hfind]
      rcases hashPhase_db_cases env cfg st fn tags handle tr sh
          ((fsLookup st.fs fn).isNone) c now with hdb | ⟨rec, hout, hdb, hcs⟩
      · left; exact hdb
      · right
        refine ⟨rec, hout, hdb, ?_⟩
        intro r hr
        have hno := List.find?_eq_none.mp hfind r hr
        rw [hcs]
        intro hc
        exact hno (by simp [hc])

/-- A record created by Image._create is freshly inserted, shares its
checksum with no prior record, and carries the checksum of the
pre-existing destination file when one existed and of the source
otherwise. -/
theorem Image_create_created_spec (env : Env) (cfg : Config) (st : St)
    (fn : RelPath) (tags : List String) (handle : Handle)
    (tr sh : Bool) (now : Nat) (rec : DBImage)
    (hout : (Image_create env cfg st fn tags handle tr sh now).out
      = CreateOut.created rec) :
    rec.id = st.nextId ∧ rec.filename = fn ∧
    (Image_create env cfg st fn tags handle tr sh now).st.db
      = st.db ++ [rec] ∧
    (Image_create env cfg st fn tags handle tr sh now).st.trash = st.trash ∧
    (∀ r ∈ st.db, r.checksum ≠ rec.checksum) ∧
    (∀ f, fsLookup st.fs fn = some f → rec.checksum = f.content) ∧
    (fsLookup st.fs fn = none → get_checksum handle = some rec.checksum) := by
  simp only [Image_create] at hout ⊢
  cases hfs : fsLookup st.fs fn with
  | some f =>
    simp only [hfs] at hout ⊢
    cases hfind : st.db.find? (fun r => r.checksum == f.content) with
    | some r =>
      simp only [hfind] at hout ⊢
      by_cases hfn : r.filename = fn
      · simp [hfn] at hout
      · simp [hfn] at hout
    | none =>
      simp only [hfind] at hout ⊢
      obtain ⟨hid, hfn2, hcs, hdb, htr⟩ :=
        hashPhase_created_spec env cfg st fn tags handle tr sh _ _ now rec hout
      refine ⟨hid, hfn2, hdb, htr, ?_, ?_, ?_⟩
      · intro r hr hc
        have hno := List.find?_eq_none.mp hfind r hr
        rw [hcs] at hc
        exact hno (by simp [hc])
      · intro f' hf'
        cases hf'
        exact hcs
      · intro hnone
        exact Option.noConfusion hnone
  | none =>
    simp only [hfs] at hout ⊢
    cases hget : get_checksum handle with
    | none =>
      simp only [hget] at hout
      simp at hout
    | some c =>
      simp only [hget] at hout ⊢
      cases hfind : st.db.find? (fun r => r.checksum == c) with
      | some r =>
        simp only [hfind] at hout ⊢
        by_cases hfn : r.filename = fn
        · simp [hfn] at hout
        · simp [hfn] at hout
      | none =>
        simp only [hfind] at hout ⊢
        obtain ⟨hid, hfn2, hcs, hdb, htr⟩ :=
          hashPhase_created_spec env cfg st fn tags handle tr sh _ _ now rec hout
        refine ⟨hid, hfn2, hdb, htr, ?_, ?_, ?_⟩
        · intro r hr hc
          have hno := List.find?_eq_none.mp hfind r hr
          rw [hcs] at hc
          exact hno (by simp [hc])
        · intro f' hf'
          exact Option.noConfusion hf'
        · intro _
          rw [hcs]

/-- Checksum uniqueness only depends on the session rows. -/
theorem ChecksumUnique_of_db_eq {s1 s2 : St} (h : s1.db = s2.db)
    (hcu : ChecksumUnique s2) : ChecksumUnique s1 := by
  unfold ChecksumUnique at *
  rw [h]
  exact hcu

/-- Image._create preserves checksum uniqueness. -/
theorem Image_create_CU (env : Env) (cfg : Config) (st : St)
    (fn : RelPath) (tags : List String) (handle : Handle)
    (tr sh : Bool) (now : Nat) (hcu : ChecksumUnique st) :
    ChecksumUnique (Image_create env cfg st fn tags handle tr sh now).st := by
  rcases Image_create_db_cases env cfg st fn tags handle tr sh now with
    hdb | ⟨rec, _, hdb, hfresh⟩
  · unfold ChecksumUnique at *
    rw [hdb]
    exact hcu
  · unfold ChecksumUnique at *
    rw [hdb]
    refine List.pairwise_append.mpr ⟨hcu, List.pairwise_singleton _ _, ?_⟩
    intro a ha b hb
    simp only [List.mem_singleton] at hb
    subst hb
    exact hfresh a ha

/-- Every Image.from_existing call raises the TypeError of imserv/db.py
line 194: complete_path_split with relative_to=None rejects every input
before _create is reached, whatever the source, state or arguments. -/
theorem from_existing_always_raises (env : Env) (cfg : Config) (st : St)
    (src : Src) (relArg : Option RelPath) (tags : List String)
    (sh : Bool) (now : Nat) :
    from_existing env cfg st src relArg tags sh now
      = Except.error PyExc.typeError := rfl

/-- One discover step preserves checksum uniqueness: the only branch that
would touch the session through from_existing raises instead. -/
theorem discoverStep_CU (env : Env) (cfg : Config) (accounted : List RelPath)
    (dd : Bool) (now : Nat) (s : St) (e : RelPath × FsFile) (s'' : St)
    (hcu : ChecksumUnique s)
    (hstep : discoverStep env cfg accounted dd now s e = Except.ok s'') :
    ChecksumUnique s'' := by
  simp only [discoverStep, from_existing_always_raises] at hstep
  split at hstep
  · cases hstep; exact hcu
  · split at hstep
    · cases hstep; exact hcu
    · split at hstep
      · cases hstep; exact hcu
      · split at hstep
        · cases hstep
          split <;> exact hcu
        · cases hstep

/-- Folding discover steps preserves checksum uniqueness. -/
theorem foldDiscover_CU (env : Env) (cfg : Config) (accounted : List RelPath)
    (dd : Bool) (now : Nat) (l : List (RelPath × FsFile))
    (acc : Except RefreshErr St)
    (hacc : ∀ s, acc = Except.ok s → ChecksumUnique s) :
    ∀ s', l.foldl (fun a e => a.bind
        (fun s => discoverStep env cfg accounted dd now s e)) acc
      = Except.ok s' → ChecksumUnique s' := by
  induction l generalizing acc with
  | nil =>
    intro s' h
    exact hacc s' h
  | cons e t ih =>
    intro s' h
    rw [List.foldl_cons] at h
    refine ih _ ?_ s' h
    intro s2 h2
    cases acc with
    | error err => simp [Except.bind] at h2
    | ok s0 =>
      have h0 := hacc s0 rfl
      simp only [Except.bind] at h2
      exact discoverStep_CU _ _ _ _ _ _ _ _ h0 h2

/-- A filterMap that keeps or drops each element in place is a sublist. -/
theorem filterMap_keep_or_drop_sublist (l : List DBImage)
    (g : DBImage → Option DBImage)
    (h : ∀ r ∈ l, g r = none ∨ g r = some r) :
    List.Sublist (l.filterMap g) l := by
  induction l with
  | nil => simp
  | cons a t ih =>
    rw [List.filterMap_cons]
    rcases h a (by simp) with ha | ha <;> rw [ha]
    · exact (ih (fun r hr => h r (by simp [hr]))).cons a
    · exact (ih (fun r hr => h r (by simp [hr]))).cons₂ a

/-- Under FilesMatch each prune step keeps the row unchanged or drops it. -/
theorem pruneStep_keep_or_drop (env : Env) (st : St) (hfm : FilesMatch st)
    (r : DBImage) (hr : r ∈ st.db) :
    pruneStep env st.fs r = none ∨ pruneStep env st.fs r = some r := by
  unfold pruneStep
  cases hl : fsLookup st.fs r.filename with
  | none => left; rfl
  | some f =>
    right
    have hc := hfm r hr f hl
    simp [hc]

/-- ImServ.refresh preserves checksum uniqueness when no surviving record has a
file content changed from its stored checksum. -/
theorem refresh_CU (env : Env) (cfg : Config) (st : St) (dd : Bool)
    (now : Nat) (s' : St) (hcu : ChecksumUnique st) (hfm : FilesMatch st)
    (hok : refresh env cfg st dd now = Except.ok s') : ChecksumUnique s' := by
  simp only [refresh] at hok
  split at hok
  · cases hok
  · rename_i s2 hfold
    cases hok
    have hcu1 : ChecksumUnique
        { st with db := st.db.filterMap (pruneStep env st.fs) } := by
      unfold ChecksumUnique at hcu ⊢
      exact hcu.sublist
        (filterMap_keep_or_drop_sublist _ _ (pruneStep_keep_or_drop env st hfm))
    have hcu2 := foldDiscover_CU env cfg _ dd now st.fs _
      (fun s h => by cases h; exact hcu1) s2 hfold
    split <;> exact hcu2

/-- A prune step keeps a row whose file still holds its checksum. -/
theorem pruneStep_some (env : Env) (fs : List (RelPath × FsFile))
    (r : DBImage) (mm : Nat)
    (h : fsLookup fs r.filename = some ⟨r.checksum, mm⟩) :
    pruneStep env fs r = some r := by
  unfold pruneStep
  rw [h]
  simp

/-- A prune step drops a row whose file is gone. -/
theorem pruneStep_none (env : Env) (fs : List (RelPath × FsFile))
    (r : DBImage) (h : fsLookup fs r.filename = none) :
    pruneStep env fs r = none := by
  unfold pruneStep
  rw [h]

/-- A filterMap that keeps every element pointwise is the identity. -/
theorem filterMap_id_of (l : List DBImage) (g : DBImage → Option DBImage)
    (h : ∀ r ∈ l, g r = some r) : l.filterMap g = l := by
  induction l with
  | nil => rfl
  | cons a t ih =>
    rw [List.filterMap_cons, h a (by simp),
      ih (fun r hr => h r (by simp [hr]))]

/-- Discover steps skip accounted-for paths, whatever the accumulator. -/
theorem discover_foldl_skip (env : Env) (cfg : Config)
    (accounted : List RelPath) (dd : Bool) (now : Nat)
    (l : List (RelPath × FsFile)) (acc : Except RefreshErr St)
    (hl : ∀ e ∈ l, e.1 ∈ accounted) :
    l.foldl (fun a e => a.bind
      (fun s => discoverStep env cfg accounted dd now s e)) acc = acc := by
  induction l generalizing acc with
  | nil => rfl
  | cons e t ih =>
    have he := hl e (by simp)
    rw [List.foldl_cons]
    have hstep : acc.bind
        (fun s => discoverStep env cfg accounted dd now s e) = acc := by
      cases acc with
      | error err => rfl
      | ok s => simp [Except.bind, discoverStep, he]
    rw [hstep]
    exact ih _ (fun x hx => hl x (by simp [hx]))


/-- Keys absent from the mapping make dict.pop find nothing. -/
theorem popKey_eq_none (l : List (String × String)) (key : String)
    (h : l.lookup key = none) : popKey l key = none := by
  induction l with
  | nil => rfl
  | cons a t ih =>
    obtain ⟨k', v⟩ := a
    by_cases hk : key = k'
    · subst hk
      simp [List.lookup] at h
    · have hb : (key == k') = false := beq_eq_false_iff_ne.mpr hk
      have h' : t.lookup key = none := by
        simpa [List.lookup, hb] using h
      simp [popKey, Ne.symm hk, ih h']

/-- A free requested path is assigned unchanged. -/
theorem nonrepeat_filename_free (fs : List (RelPath × FsFile)) (p : RelPath)
    (suffix : String) (h : fsLookup fs p = none) :
    nonrepeat_filename fs p suffix = p := by
  unfold nonrepeat_filename
  rw [show fs.length + 2 = (fs.length + 1) + 1 from rfl,
    List.range_succ_eq_map]
  simp [List.find?, assignCandidate, h]

/-- The shape of the first disambiguated candidate of a bare filename. -/
theorem assignCandidate_one (x s : String) :
    assignCandidate [x] s 1
      = [(if s = "" then x else x ++ "-" ++ s) ++ "-" ++ toString 0] := rfl

/-- The first disambiguated candidate differs from the requested name. -/
theorem cand1_ne (x s : String) :
    (if s = "" then x else x ++ "-" ++ s) ++ "-" ++ toString 0 ≠ x := by
  have l1 : ("-" : String).length = 1 := rfl
  have l2 : (toString (0 : Nat)).length = 1 := rfl
  by_cases hs : s = ""
  · rw [if_pos hs]
    intro hc
    have h2 := congrArg String.length hc
    simp [String.length_append, l1, l2] at h2
    omega
  · rw [if_neg hs]
    intro hc
    have h2 := congrArg String.length hc
    simp [String.length_append, l1, l2] at h2
    omega

/-- On a folder holding exactly the requested path, the first disambiguated
candidate is assigned. -/
theorem nonrepeat_single (x : String) (fv : FsFile) (s : String) :
    nonrepeat_filename [([x], fv)] [x] s = assignCandidate [x] s 1 := by
  unfold nonrepeat_filename
  rw [show ([([x], fv)] : List (RelPath × FsFile)).length + 2 = 3 from rfl]
  rw [show List.range 3 = [0, 1, 2] from rfl]
  simp only [List.map]
  have h0 : (fsLookup [([x], fv)] (assignCandidate [x] s 0)).isNone = false := by
    simp [assignCandidate, fsLookup_single]
  have hne : ¬ (assignCandidate [x] s 1 = [x]) := by
    rw [assignCandidate_one]
    simp [cand1_ne x s]
  have h1 : (fsLookup [([x], fv)] (assignCandidate [x] s 1)).isNone = true := by
    rw [fsLookup_single, if_neg hne]
    rfl
  simp [List.find?, h0, h1]

/-- C1: the spec says find_near(h, 0) with a zero threshold is the
exact-fingerprint lookup on the perceptual hash.  In the code this branch
of the generator function similar_images_by_hash yields nothing (its
return iter(query) is discarded), so a record whose stored image_hash
equals the probe is missed: the code returns the empty sequence while the
exact lookup holds exactly that record. -/
theorem find_near_zero_threshold_yields_nothing :
    similar_images_by_hash envPlain cfgDefault [recHash7] 7 = [] ∧
    exact_hash_lookup [recHash7] 7 = [recHash7] := ⟨rfl, rfl⟩

/-- C2: the spec says importing an existing external byte-identical copy of
an indexed file returns Conflict referencing the record, touches it, and
soft-deletes the source.  In the code every Image.from_existing call dies
first: db.py line 194 passes relative_to=None to complete_path_split,
whose Path(path).relative_to(None) raises TypeError, so the import
crashes before _create runs — no Conflict is returned, no record is
touched or created, nothing is stored and nothing is trashed (no
statement before line 194 mutates the session or the folder). -/
theorem from_existing_external_raises_type_error :
    from_existing envPlain cfgDefault stCat
      (.external "cat_copy.png" (some 100)) none [] false 9
      = Except.error PyExc.typeError := rfl

/-- C3 counterexample: a bytes import through trim/shrink normalization and
PIL re-encoding stores checksum 5 (of the source bytes) while the file
written at the target path holds content 6, so the stored checksum is not
the fingerprint of the on-disk bytes. -/
theorem created_checksum_differs_from_disk :
    (from_bytes_io envReencode cfgDefault stEmpty 5
        (some ["a.png"]) [] "u" 1).st.db.map (fun r => r.checksum) = [5] ∧
    (fsLookup (from_bytes_io envReencode cfgDefault stEmpty 5
        (some ["a.png"]) [] "u" 1).st.fs ["a.png"]).map (fun f => f.content)
      = some 6 :=
  ⟨rfl, rfl⟩

/-- C3 (amended): the stored checksum of every record created by ingestion
is the exact fingerprint of the SOURCE byte content as supplied — of the
pre-existing destination file when one existed, and of the raw source
before any trim/shrink normalization or re-encoding otherwise.  It equals
the fingerprint of the bytes on disk only when placement writes those very
bytes. -/
theorem created_checksum_is_source_fingerprint (env : Env) (cfg : Config)
    (st : St) (fn : RelPath) (tags : List String) (handle : Handle)
    (tr sh : Bool) (now : Nat) (rec : DBImage)
    (hout : (Image_create env cfg st fn tags handle tr sh now).out
      = CreateOut.created rec) :
    (∀ f, fsLookup st.fs fn = some f → rec.checksum = f.content) ∧
    (fsLookup st.fs fn = none → get_checksum handle = some rec.checksum) := by
  obtain ⟨-, -, -, -, -, h6, h7⟩ :=
    Image_create_created_spec env cfg st fn tags handle tr sh now rec hout
  exact ⟨h6, h7⟩

/-- Witness for the amended C3 statement at a concrete import. -/
theorem created_checksum_is_source_fingerprint_witness :
    (∀ f, fsLookup stEmpty.fs ["a.png"] = some f →
      (⟨0, ["a.png"], 5, some 5, [], []⟩ : DBImage).checksum = f.content) ∧
    (fsLookup stEmpty.fs ["a.png"] = none →
      get_checksum (.bytes 5)
        = some (⟨0, ["a.png"], 5, some 5, [], []⟩ : DBImage).checksum) :=
  created_checksum_is_source_fingerprint envPlain cfgDefault stEmpty
    ["a.png"] [] (.bytes 5) true true 1 ⟨0, ["a.png"], 5, some 5, [], []⟩ rfl

/-- C4 counterexample: importing the same bytes with the same requested
filename twice yields the conflict string on the second call (the name is
first disambiguated to a fresh path, where the checksum matches the first
record), not the Reused outcome the claim demands. -/
theorem second_bytes_import_conflicts_not_reuses :
    (from_bytes_io envPlain cfgDefault
        (from_bytes_io envPlain cfgDefault stEmpty 5
          (some ["img.png"]) [] "u1" 1).st
        5 (some ["img.png"]) [] "u2" 2).out =
      CreateOut.conflictMsg ⟨0, ["img.png"], 5, some 5, [], []⟩ := rfl

/-- C4 (amended): under the default configuration, importing identical
bytes with the same requested filename twice into an empty store yields
Created and then — because from_bytes_io always disambiguates the name
against the existing file, so the second import runs at a fresh path —
the Conflict outcome referencing the first record, never Reused and never
a second Created; exactly one record exists afterwards. -/
theorem bytes_import_twice_created_then_conflict (env : Env) (x : String)
    (d iv hv : Nat) (u1 u2 : String) (t1 t2 : Nat)
    (hx : x ≠ "image.png")
    (hdec : env.decode d = some iv)
    (hhash : env.dhash (env.shrinkF (env.trimF iv)) = some hv) :
    ∃ rec,
      (from_bytes_io env cfgDefault stEmpty d (some [x]) [] u1 t1).out
        = CreateOut.created rec ∧
      (from_bytes_io env cfgDefault
          (from_bytes_io env cfgDefault stEmpty d (some [x]) [] u1 t1).st
          d (some [x]) [] u2 t2).out = CreateOut.conflictMsg rec ∧
      (from_bytes_io env cfgDefault
          (from_bytes_io env cfgDefault stEmpty d (some [x]) [] u1 t1).st
          d (some [x]) [] u2 t2).st.db = [rec] ∧
      rec.checksum = d := by
  have hP : processImage env (.bytes d) true true
      = some (env.shrinkF (env.trimF iv)) := by
    simp [processImage, Handle.readable, hdec]
  have hxl : ¬ ([x] : RelPath) = ["image.png"] := by simp [hx]
  have hfree : fsLookup [] [x] = none := rfl
  have hnr : ∀ sfx, nonrepeat_filename [] [x] sfx = [x] :=
    fun sfx => nonrepeat_filename_free [] [x] sfx hfree
  have h1 : from_bytes_io env cfgDefault stEmpty d (some [x]) [] u1 t1
      = ⟨CreateOut.created ⟨0, [x], d, some hv, [], []⟩,
         ⟨[([x], ⟨env.encodeF (env.shrinkF (env.trimF iv)), t1⟩)],
          [⟨0, [x], d, some hv, [], []⟩], [], 1⟩⟩ := by
    simp [from_bytes_io, hxl, hnr,
      Image_create, Image_create_hashPhase, finishCreate, get_checksum,
      Handle.readable, hP, hhash, similar_images_by_hash, fsSet, touchFile,
      fsLookup, tagUnion, stEmpty, cfgDefault, List.find?]
  have hyne : ¬ (assignCandidate [x] (env.slug ("-".intercalate [])) 1
      = [x]) := by
    rw [assignCandidate_one]
    simp [cand1_ne]
  have hlook2 : fsLookup
      [([x], ⟨env.encodeF (env.shrinkF (env.trimF iv)), t1⟩)]
      (assignCandidate [x] (env.slug ("-".intercalate [])) 1) = none := by
    rw [fsLookup_single, if_neg hyne]
  have hfind2 : List.find? (fun r => r.checksum == d)
      [(⟨0, [x], d, some hv, [], []⟩ : DBImage)]
      = some ⟨0, [x], d, some hv, [], []⟩ := by
    simp [List.find?]
  have hfn2 : ¬ ((⟨0, [x], d, some hv, [], []⟩ : DBImage).filename
      = assignCandidate [x] (env.slug ("-".intercalate [])) 1) := by
    intro hc
    exact hyne hc.symm
  have h2 : from_bytes_io env cfgDefault
      ⟨[([x], ⟨env.encodeF (env.shrinkF (env.trimF iv)), t1⟩)],
       [⟨0, [x], d, some hv, [], []⟩], [], 1⟩ d (some [x]) [] u2 t2
      = ⟨CreateOut.conflictMsg ⟨0, [x], d, some hv, [], []⟩,
         ⟨touchFile [([x], ⟨env.encodeF (env.shrinkF (env.trimF iv)), t1⟩)]
            [x] t2,
          [⟨0, [x], d, some hv, [], []⟩], [], 1⟩⟩ := by
    simp [from_bytes_io, hxl, nonrepeat_single, Image_create, hlook2,
      get_checksum, Handle.readable, hfind2, hfn2, cfgDefault]
  refine ⟨⟨0, [x], d, some hv, [], []⟩, by rw [h1], ?_, ?_, rfl⟩ <;>
    rw [h1, h2]

/-- Witness for the amended C4 statement at concrete bytes. -/
theorem bytes_import_twice_created_then_conflict_witness :
    ∃ rec,
      (from_bytes_io envPlain cfgDefault stEmpty 5
        (some ["img.png"]) [] "u1" 1).out = CreateOut.created rec ∧
      (from_bytes_io envPlain cfgDefault
          (from_bytes_io envPlain cfgDefault stEmpty 5
            (some ["img.png"]) [] "u1" 1).st
          5 (some ["img.png"]) [] "u2" 2).out = CreateOut.conflictMsg rec ∧
      (from_bytes_io envPlain cfgDefault
          (from_bytes_io envPlain cfgDefault stEmpty 5
            (some ["img.png"]) [] "u1" 1).st
          5 (some ["img.png"]) [] "u2" 2).st.db = [rec] ∧
      rec.checksum = 5 :=
  bytes_import_twice_created_then_conflict envPlain "img.png" 5 5 5
    "u1" "u2" 1 2 (by decide) rfl rfl

/-- C5 counterexample: a state reached by two bytes imports followed by one
refresh holds two distinct records (ids 0 and 1) sharing checksum 2: the
imports store pre-normalization checksums while normalization and
re-encoding land other bytes on disk, and the refresh update phase copies
a recomputed checksum into a record without any duplicate check. -/
theorem reachable_duplicate_checksums :
    (refresh envCollide cfgDefault
        (from_bytes_io envCollide cfgDefault
          (from_bytes_io envCollide cfgDefault stEmpty 1
            (some ["p1.png"]) [] "u1" 1).st
          2 (some ["p2.png"]) [] "u2" 2).st
        false 9).map (fun s => s.db.map (fun r => (r.id, r.checksum))) =
      Except.ok [(0, 2), (1, 2)] := rfl

/-- C5 (amended): ingestion alone preserves checksum uniqueness — every
Image._create call keeps the no-two-records-share-a-checksum invariant,
and a Created outcome never carries a checksum an existing record already
has (the second import of an equal checksum yields Reused or Conflict
instead) — and refresh preserves the invariant provided every surviving
record file still holds the content of its stored checksum; the refresh
update phase can otherwise introduce a duplicate (see the
counterexample). -/
theorem checksum_uniqueness_spec :
    (∀ env cfg st fn tags handle tr sh now, ChecksumUnique st →
      ChecksumUnique (Image_create env cfg st fn tags handle tr sh now).st) ∧
    (∀ env cfg st fn tags handle tr sh now rec,
      (Image_create env cfg st fn tags handle tr sh now).out
        = CreateOut.created rec → ∀ r ∈ st.db, r.checksum ≠ rec.checksum) ∧
    (∀ env cfg st dd now s', ChecksumUnique st → FilesMatch st →
      refresh env cfg st dd now = Except.ok s' → ChecksumUnique s') := by
  refine ⟨?_, ?_, ?_⟩
  · intro env cfg st fn tags handle tr sh now hcu
    exact Image_create_CU env cfg st fn tags handle tr sh now hcu
  · intro env cfg st fn tags handle tr sh now rec hout
    exact (Image_create_created_spec env cfg st fn tags handle tr sh now
      rec hout).2.2.2.2.1
  · intro env cfg st dd now s' hcu hfm hok
    exact refresh_CU env cfg st dd now s' hcu hfm hok

/-- Witness for the amended C5 statement at concrete inputs. -/
theorem checksum_uniqueness_spec_witness :
    ChecksumUnique (Image_create envPlain cfgDefault stEmpty ["x.png"] []
      (.bytes 3) true true 0).st ∧
    (∀ r ∈ stEmpty.db, r.checksum
      ≠ (⟨0, ["x.png"], 3, some 3, [], []⟩ : DBImage).checksum) ∧
    ChecksumUnique stEmpty :=
  ⟨checksum_uniqueness_spec.1 envPlain cfgDefault stEmpty ["x.png"] []
      (.bytes 3) true true 0 List.Pairwise.nil,
   checksum_uniqueness_spec.2.1 envPlain cfgDefault stEmpty ["x.png"] []
      (.bytes 3) true true 0 ⟨0, ["x.png"], 3, some 3, [], []⟩ rfl,
   checksum_uniqueness_spec.2.2 envPlain cfgDefault stEmpty false 0 stEmpty
      List.Pairwise.nil (fun r hr => by cases hr) rfl⟩

/-- C6: the claim says per-item failures in batch reconciliation are
caught and logged and never abort the batch.  At this state — one record
imported without a perceptual hash, plus a byte-identical copy at another
path — the discover phase finds no image_hash match for the copy and
calls Image.from_existing, whose TypeError (db.py line 194) propagates
uncaught out of refresh and aborts the whole batch. -/
theorem refresh_discover_raises_type_error :
    refresh envPlain cfgDefault stSkipHashCopy true 5 =
      Except.error RefreshErr.typeError := rfl

/-- C7: the claim says refresh on a root with one new unindexed image at
a/b/new.png (content matching no record by checksum or perceptual hash)
creates one record with tags a and b and no duplicate checksum.  In the
code the discover phase reaches the new file, finds no image_hash match,
and calls Image.from_existing, which raises TypeError at db.py line 194
before any record can be created; the refresh batch aborts and the index
gains nothing. -/
theorem refresh_new_file_raises_type_error :
    refresh envPlain cfgDefault
      ⟨[(["cat.png"], ⟨1, 0⟩), (["a", "b", "new.png"], ⟨2, 0⟩)],
       [⟨0, ["cat.png"], 1, some 1, [], []⟩], [], 1⟩ true 9
      = Except.error RefreshErr.typeError := rfl

/-- C8: when exactly one indexed record has lost its backing file and every
other record file is unchanged, refresh deletes exactly that record: the
remaining session is the other records, values untouched (identity,
checksum and perceptual hash included). -/
theorem refresh_prunes_exactly_the_missing_record (env : Env) (cfg : Config)
    (st : St) (dd : Bool) (now : Nat) (r0 : DBImage)
    (dbA dbB : List DBImage)
    (hdb : st.db = dbA ++ r0 :: dbB)
    (hgone : fsLookup st.fs r0.filename = none)
    (hmatch : ∀ r ∈ dbA ++ dbB, ∃ mm,
      fsLookup st.fs r.filename = some ⟨r.checksum, mm⟩)
    (hfiles : ∀ e ∈ st.fs, ∃ r, r ∈ dbA ++ dbB ∧ r.filename = e.1) :
    ∃ s', refresh env cfg st dd now = Except.ok s' ∧ s'.db = dbA ++ dbB := by
  have hprune : st.db.filterMap (pruneStep env st.fs) = dbA ++ dbB := by
    rw [hdb, List.filterMap_append, List.filterMap_cons,
        pruneStep_none env st.fs r0 hgone]
    rw [filterMap_id_of dbA _ (fun r hr => by
      obtain ⟨mm, hm⟩ := hmatch r (List.mem_append_left _ hr)
      exact pruneStep_some env st.fs r mm hm)]
    rw [filterMap_id_of dbB _ (fun r hr => by
      obtain ⟨mm, hm⟩ := hmatch r (List.mem_append_right _ hr)
      exact pruneStep_some env st.fs r mm hm)]
  simp only [refresh]
  rw [hprune]
  rw [discover_foldl_skip env cfg _ dd now st.fs _ (fun e he => by
    obtain ⟨r, hr, hfn⟩ := hfiles e he
    exact List.mem_map.mpr ⟨r, hr, hfn⟩)]
  cases dd with
  | true => exact ⟨_, rfl, rfl⟩
  | false => exact ⟨_, rfl, rfl⟩

/-- Witness for C8 at a concrete state. -/
theorem refresh_prunes_exactly_the_missing_record_witness :
    ∃ s', refresh envPlain cfgDefault
        ⟨[(["b.png"], ⟨7, 0⟩)],
         [⟨0, ["a.png"], 5, some 5, [], []⟩, ⟨1, ["b.png"], 7, some 7, [], []⟩],
         [], 2⟩ true 3 = Except.ok s' ∧
      s'.db = [] ++ [⟨1, ["b.png"], 7, some 7, [], []⟩] :=
  refresh_prunes_exactly_the_missing_record envPlain cfgDefault
    ⟨[(["b.png"], ⟨7, 0⟩)],
     [⟨0, ["a.png"], 5, some 5, [], []⟩, ⟨1, ["b.png"], 7, some 7, [], []⟩],
     [], 2⟩ true 3 ⟨0, ["a.png"], 5, some 5, [], []⟩ []
    [⟨1, ["b.png"], 7, some 7, [], []⟩] rfl rfl
    (by intro r hr; refine ⟨0, ?_⟩; simp at hr; rw [hr]; rfl)
    (by intro e he; refine ⟨⟨1, ["b.png"], 7, some 7, [], []⟩, by simp, ?_⟩
        simp at he; rw [he])

/-- C9: Image.from_existing accepts a per-call skip_hash argument and never
reads it — it is not forwarded to Image._create, which consults only the
process-wide configuration — so two calls differing only in that argument
produce the same outcome and the same index and file-system state. -/
theorem from_existing_ignores_skip_hash_argument
    (env : Env) (cfg : Config) (st : St) (src : Src) (relArg : Option RelPath)
    (tags : List String) (sh1 sh2 : Bool) (now : Nat) :
    from_existing env cfg st src relArg tags sh1 now =
      from_existing env cfg st src relArg tags sh2 now := rfl

/-- C10: Image.remove_info on a key absent from the stored info mapping
raises KeyError (dict.pop) before info_json is reassigned and before the
session commits, so no updated record is produced and the stored mapping is
unchanged. -/
theorem remove_info_missing_key_errors (im : DBImage) (key : String)
    (habsent : im.info.lookup key = none) :
    remove_info im key = Except.error () := by
  unfold remove_info
  rw [popKey_eq_none im.info key habsent]

/-- Witness for C10 at a concrete record. -/
theorem remove_info_missing_key_errors_witness :
    remove_info ⟨0, ["a.png"], 1, none, [], [("k", "v")]⟩ "absent" =
      Except.error () :=
  remove_info_missing_key_errors _ _ (by decide)

end ImServ
